import Mathlib

/-!
Verification development for an early payment-channel node (lnd fork).

Part 1 models the wire-message codec: the message structs `HTLCAddReject`,
`HTLCAddAccept` and `CloseComplete` with their `Encode`/`Decode`/
`MaxPayloadLength`/`String` methods, over byte streams modelled as
`List Nat` (each element one octet).

The per-message code (field lists, payload bounds, diagnostic rendering)
is translated from `lnwire/close_complete.go` and the two HTLC message
files.  The composite element codec (`readElements`/`writeElements`) lives
in a file of the repository that is not part of the sources here, so those
primitives are modelled from the spec, as marked on each definition.

Part 2 models the connection/session manager of `server.go`: the server
state, `addPeer`/`removePeer`, the peer-manager and query-handler workers,
the background dial task, and `Start`/`Stop` with their wrapping `int32`
one-shot counters.
-/

namespace LnSpec

/-! ### Byte-level primitives (modelled from the spec)

Modelled from the spec: the composite element codec (`writeElements` /
`readElements` of `lnwire/lnwire.go`, absent from the sources) writes
fixed-width unsigned integers in one fixed endianness chosen once for the
whole protocol; we document big-endian.  A byte is an octet, a stream is a
`List Nat` of octets. -/

/-- Big-endian bytes of `n`, exactly `w` octets (most significant first). -/
def toBytesBE : Nat → Nat → List Nat
  | 0, _ => []
  | w + 1, n => toBytesBE w (n / 256) ++ [n % 256]

/-- Read a big-endian byte list back into a natural number. -/
def fromBytesBE (bs : List Nat) : Nat :=
  bs.foldl (fun acc b => acc * 256 + b) 0

theorem toBytesBE_length (w n : Nat) : (toBytesBE w n).length = w := by
  induction w generalizing n with
  | zero => rfl
  | succ k ih => simp [toBytesBE, ih]

theorem fromBytesBE_append_singleton (xs : List Nat) (b : Nat) :
    fromBytesBE (xs ++ [b]) = fromBytesBE xs * 256 + b := by
  simp [fromBytesBE, List.foldl_append]

theorem fromBytesBE_toBytesBE (w n : Nat) (h : n < 256 ^ w) :
    fromBytesBE (toBytesBE w n) = n := by
  induction w generalizing n with
  | zero =>
    simp [Nat.pow_zero] at h
    simp [toBytesBE, fromBytesBE, h]
  | succ k ih =>
    have hdiv : n / 256 < 256 ^ k := by
      rw [Nat.div_lt_iff_lt_mul (by omega : 0 < 256)]
      rw [Nat.pow_succ] at h
      omega
    rw [toBytesBE, fromBytesBE_append_singleton, ih (n / 256) hdiv]
    omega

/-- Modelled from the spec: reading one fixed-width 64-bit unsigned integer
from the stream (8 octets, big-endian); fails when the stream is short. -/
def readU64 (bs : List Nat) : Option (Nat × List Nat) :=
  if 8 ≤ bs.length then some (fromBytesBE (bs.take 8), bs.drop 8) else none

theorem readU64_append (n : Nat) (rest : List Nat) (h : n < 2 ^ 64) :
    readU64 (toBytesBE 8 n ++ rest) = some (n, rest) := by
  have hlen : (toBytesBE 8 n).length = 8 := toBytesBE_length 8 n
  have htake : (toBytesBE 8 n ++ rest).take 8 = toBytesBE 8 n := by
    rw [List.take_append_of_le_length (by omega), List.take_of_length_le (by omega)]
  have hdrop : (toBytesBE 8 n ++ rest).drop 8 = rest := by
    have hd := List.drop_left (toBytesBE 8 n) rest
    rwa [hlen] at hd
  have hn : n < 256 ^ 8 := by norm_num at h ⊢; omega
  rw [readU64]
  rw [if_pos (by simp [hlen])]
  rw [htake, hdrop, fromBytesBE_toBytesBE 8 n hn]

/-! ### HTLCAddReject / HTLCAddAccept -/

/-- `HTLCAddReject` from the source: `ChannelID uint64`, `HTLCKey` (a
64-bit identifier).  Machine integers are carried as `Nat`; the 64-bit
range shows up as hypotheses on round-trip statements. -/
structure HTLCAddReject where
  channelID : Nat
  htlcKey : Nat
deriving DecidableEq

namespace HTLCAddReject

/-- `Encode` from the source: `writeElements(w, c.ChannelID, c.HTLCKey)`. -/
def encode (c : HTLCAddReject) : List Nat :=
  toBytesBE 8 c.channelID ++ toBytesBE 8 c.htlcKey

/-- `Decode` from the source: `readElements(r, &c.ChannelID, &c.HTLCKey)`.
Returns the decoded struct and the unconsumed remainder of the stream. -/
def decode (bs : List Nat) : Option (HTLCAddReject × List Nat) := do
  let (cid, bs) ← readU64 bs
  let (key, bs) ← readU64 bs
  pure (⟨cid, key⟩, bs)

/-- `MaxPayloadLength` from the source: 16, for every protocol version. -/
def maxPayloadLength (_pver : Nat) : Nat := 16

end HTLCAddReject

/-- `HTLCAddAccept` from the source: same field layout as `HTLCAddReject`. -/
structure HTLCAddAccept where
  channelID : Nat
  htlcKey : Nat
deriving DecidableEq

namespace HTLCAddAccept

/-- `Encode` from the source: `writeElements(w, c.ChannelID, c.HTLCKey)`. -/
def encode (c : HTLCAddAccept) : List Nat :=
  toBytesBE 8 c.channelID ++ toBytesBE 8 c.htlcKey

/-- `Decode` from the source: `readElements(r, &c.ChannelID, &c.HTLCKey)`. -/
def decode (bs : List Nat) : Option (HTLCAddAccept × List Nat) := do
  let (cid, bs) ← readU64 bs
  let (key, bs) ← readU64 bs
  pure (⟨cid, key⟩, bs)

/-- `MaxPayloadLength` from the source: 16, for every protocol version. -/
def maxPayloadLength (_pver : Nat) : Nat := 16

end HTLCAddAccept

/-! ### CloseComplete

Optional fields: `ResponderCloseSig *btcec.Signature` and
`CloseShaHash *wire.ShaHash` are nilable pointers, modelled as `Option`;
a signature value is its serialized byte blob, a hash value its 32 octets. -/

/-- `CloseComplete` from the source: `ReservationID uint64` plus the two
optional fields. -/
structure CloseComplete where
  reservationID : Nat
  responderCloseSig : Option (List Nat)
  closeShaHash : Option (List Nat)
deriving DecidableEq

/-- Modelled from the spec: `writeElements` on a signature field (absent
from the sources) writes the blob length-prefixed by one explicit length
byte.  Per the source's field comment in `close_complete.go`
("ResponderCloseSig (73): First byte length then sig") and the spec's
table ("total ≤113 bytes"), the whole field occupies at most 73 octets:
one length byte plus at most 72 signature octets; a longer blob is an
encode error.  A nil signature is written as the defined empty encoding:
a single zero length byte. -/
def writeSig : Option (List Nat) → Except String (List Nat)
  | none => .ok [0]
  | some b => if b.length ≤ 72 then .ok (b.length :: b) else .error "Signature too long"

/-- Modelled from the spec: `writeElements` on a fixed 32-octet hash field;
a nil hash is written as the defined all-zero output (32 zero octets). -/
def writeSha : Option (List Nat) → List Nat
  | none => List.replicate 32 0
  | some h => h

/-- Modelled from the spec: reading a length-prefixed signature field.
The declared length is read first and a declared length exceeding the
maximum is a hard decode failure before any blob is read; a zero declared
length yields the absent signature (the defined empty encoding). -/
def readSig (bs : List Nat) : Option (Option (List Nat) × List Nat) :=
  match bs with
  | [] => none
  | l :: rest =>
    if l ≤ 72 then
      if l = 0 then some (none, rest)
      else if l ≤ rest.length then some (some (rest.take l), rest.drop l)
      else none
    else none

/-- Modelled from the spec: reading a fixed 32-octet hash field; the field
always decodes to a present 32-octet hash value. -/
def readSha (bs : List Nat) : Option (Option (List Nat) × List Nat) :=
  if 32 ≤ bs.length then some (some (bs.take 32), bs.drop 32) else none

namespace CloseComplete

/-- `Encode` from the source:
`writeElements(w, c.ReservationID, c.ResponderCloseSig, c.CloseShaHash)`. -/
def encode (c : CloseComplete) : Except String (List Nat) :=
  match writeSig c.responderCloseSig with
  | .error e => .error e
  | .ok sb => .ok (toBytesBE 8 c.reservationID ++ sb ++ writeSha c.closeShaHash)

/-- `Decode` from the source:
`readElements(r, &c.ReservationID, &c.ResponderCloseSig, &c.CloseShaHash)`. -/
def decode (bs : List Nat) : Option (CloseComplete × List Nat) := do
  let (rid, bs) ← readU64 bs
  let (sig, bs) ← readSig bs
  let (sha, bs) ← readSha bs
  pure (⟨rid, sig, sha⟩, bs)

/-- `MaxPayloadLength` from the source: `// 8 + 73 + 32`, returns 113 for
every protocol version. -/
def maxPayloadLength (_pver : Nat) : Nat := 113

end CloseComplete

/-! ### Diagnostic rendering of CloseComplete -/

/-- One lowercase hex digit. -/
def hexDigit (n : Nat) : Char :=
  if n < 10 then Char.ofNat (48 + n) else Char.ofNat (87 + n)

/-- `%x` of one octet: two lowercase hex digits. -/
def byteHexPair (b : Nat) : String :=
  String.mk [hexDigit (b / 16 % 16), hexDigit (b % 16)]

/-- `%x` of a byte slice: concatenated hex pairs; the empty slice renders
as the empty string. -/
def bytesHex (bs : List Nat) : String :=
  String.join (bs.map byteHexPair)

/-- `wire.ShaHash.String()`: byte-reversed hex rendering of the hash. -/
def shaHashStr (h : List Nat) : String :=
  bytesHex h.reverse

/-- `String` from the source: `serializedSig` stays the empty byte slice
unless the signature is present, `shaString` stays the empty string unless
the hash is present, then the four `Sprintf` lines are concatenated. -/
def closeCompleteString (c : CloseComplete) : String :=
  let serializedSig : String :=
    match c.responderCloseSig with
    | none => ""
    | some b => bytesHex b
  let shaStr : String :=
    match c.closeShaHash with
    | none => ""
    | some h => shaHashStr h
  "\n--- Begin CloseComplete ---\n" ++
    ("ReservationID:\t\t" ++ toString c.reservationID ++ "\n") ++
    ("ResponderCloseSig:\t" ++ serializedSig ++ "\n") ++
    ("CloseShaHash:\t\t" ++ shaStr ++ "\n") ++
    "--- End CloseComplete ---\n"

/-! ### Codec field-level round-trip lemmas -/

theorem readSig_empty_encoding (rest : List Nat) :
    readSig (0 :: rest) = some (none, rest) := by
  simp [readSig]

theorem readSig_append (b rest : List Nat) (hle : b.length ≤ 72) (hne : b ≠ []) :
    readSig ((b.length :: b) ++ rest) = some (some b, rest) := by
  have hlen0 : b.length ≠ 0 := by
    intro h0
    exact hne (List.eq_nil_of_length_eq_zero h0)
  simp only [readSig, List.cons_append]
  rw [if_pos hle, if_neg hlen0, if_pos (by simp only [List.length_append]; omega)]
  rw [List.take_left, List.drop_left]

theorem readSig_append_cons (b rest : List Nat) (hle : b.length ≤ 72) (hne : b ≠ []) :
    readSig (b.length :: (b ++ rest)) = some (some b, rest) := by
  have hr := readSig_append b rest hle hne
  rwa [List.cons_append] at hr

theorem readSha_append (h rest : List Nat) (hlen : h.length = 32) :
    readSha (h ++ rest) = some (some h, rest) := by
  rw [readSha, if_pos (by simp only [List.length_append]; omega)]
  have ht := List.take_left h rest
  have hd := List.drop_left h rest
  rw [hlen] at ht hd
  rw [ht, hd]

/-! ### Connection/session manager (`server.go`)

A peer session is external to this core: it exposes a stable local
identifier (`peerID int32`, modelled as `Nat`) and a remote-address
rendering (`lightningAddr.String()`, modelled as `String`).  Side effects
of the server code (stopping a peer, closing a listener, launching a
worker goroutine, sending on a queue) are recorded as an explicit list of
`Effect`s so that theorems can speak about what a code path does. -/

/-- A peer session, reduced to what `server.go` reads of it. -/
structure Peer where
  peerID : Nat
  lightningAddr : String
deriving DecidableEq

/-- Observable side effects of the server code paths. -/
inductive Effect where
  | stopPeer (id : Nat)
  | closeListener (i : Nat)
  | stopRPC
  | stopWallet
  | closeQuit
  | launchAcceptLoop (i : Nat)
  | launchPeerManager
  | launchQueryHandler
  | launchDialTask
  | sendNewPeer (p : Peer)
deriving DecidableEq

/-- The `server` struct state: the two atomic `int32` one-shot counters
(kept modulo `2^32`, matching Go's wrapping `atomic.AddInt32`), one
open/closed flag per listener, the peer map as an association list keyed
by `peerID`, and whether the `quit` channel has been closed. -/
structure ServerState where
  started : Nat
  shutdown : Nat
  listenersOpen : List Bool
  peers : List (Nat × Peer)
deriving DecidableEq

/-- Go map assignment `s.peers[p.peerID] = p`: replace any existing
binding for the key, bind the key to `p`. -/
def insertPeer (m : List (Nat × Peer)) (p : Peer) : List (Nat × Peer) :=
  m.filter (fun e => e.1 ≠ p.peerID) ++ [(p.peerID, p)]

/-- Lookup in the peer map. -/
def findPeer (m : List (Nat × Peer)) (id : Nat) : Option Peer :=
  (m.find? (fun e => e.1 = id)).map (fun e => e.2)

theorem findPeer_insertPeer (m : List (Nat × Peer)) (p : Peer) :
    findPeer (insertPeer m p) p.peerID = some p := by
  simp [findPeer, insertPeer]

/-- `addPeer` from the source: bail on a nil peer; if the shutdown flag is
set, stop the delivered peer instead of registering it; otherwise register
it in the peer map under its identifier. -/
def addPeer (s : ServerState) (p : Option Peer) : ServerState × List Effect :=
  match p with
  | none => (s, [])
  | some p =>
    if s.shutdown ≠ 0 then (s, [.stopPeer p.peerID])
    else ({ s with peers := insertPeer s.peers p }, [])

/-- `removePeer` from the source: an empty body — a stub that changes
nothing for every delivered peer. -/
def removePeer (s : ServerState) (_p : Peer) : ServerState := s

/-- The messages the peer-manager worker selects over: the new-peer queue,
the done-peer queue, and the closed quit channel. -/
inductive PeerMsg where
  | newPeer (p : Option Peer)
  | donePeer (p : Peer)
  | quit
deriving DecidableEq

/-- One iteration of the `peerManager` worker loop: the resulting state,
the effects performed, and whether the loop continues (`false` exactly on
the quit branch, which breaks out). -/
def peerManagerStep (s : ServerState) : PeerMsg → ServerState × List Effect × Bool
  | .newPeer p => ((addPeer s p).1, (addPeer s p).2, true)
  | .donePeer p => (removePeer s p, [], true)
  | .quit => (s, [], false)

/-! ### Query handler and the synchronous connect protocol -/

/-- A value on the generic query queue: either a `connectPeerMsg`
(carrying the target's address rendering, `addr.String()`), or any other
value, for which the type switch in `queryHandler` has no case. -/
inductive Query where
  | connectPeer (addr : String)
  | other (tag : Nat)
deriving DecidableEq

/-- The duplicate-connection error text from the source:
`"already connected to peer: %v"` rendered with the peer's address. -/
def dupErrorMsg (p : Peer) : String :=
  "already connected to peer: " ++ p.lightningAddr

/-- The duplicate scan of `queryHandler`: for every registered peer whose
remote-address rendering equals the target, one duplicate-connection error
is sent to the reply slot.  A reply is `none` for Go's `nil` error and
`some e` for an error `e`. -/
def dupReplies (m : List (Nat × Peer)) (addr : String) : List (Option String) :=
  (m.filter (fun e => e.2.lightningAddr = addr)).map (fun e => some (dupErrorMsg e.2))

/-- The background dial goroutine of `queryHandler`, translated from the
source.  `dialErr` is the outcome of the external `conn.Dial` call and
`session` the peer session `newPeer(conn, s)` would construct.  On dial
failure the code sends the error on the reply slot and then, lacking a
return, still falls through: it constructs the peer session, enqueues it
on the new-peer queue, and sends a second nil reply.  On success it sends
the single nil reply after enqueueing the session. -/
def connectTask (dialErr : Option String) (session : Peer) :
    List (Option String) × List Effect :=
  match dialErr with
  | some e => ([some e, none], [.sendNewPeer session])
  | none => ([none], [.sendNewPeer session])

/-- One iteration of the `queryHandler` worker loop on a received query:
the resulting state, the replies delivered to the query's reply slot (in
delivery order: the synchronous duplicate-scan errors first, then the dial
task's replies), the effects performed, and whether the loop continues.
A query that is not a `connectPeerMsg` falls through the type switch. -/
def handleQuery (s : ServerState) (q : Query) (dialErr : Option String)
    (session : Peer) : ServerState × List (Option String) × List Effect × Bool :=
  match q with
  | .connectPeer addr =>
    (s, dupReplies s.peers addr ++ (connectTask dialErr session).1,
      .launchDialTask :: (connectTask dialErr session).2, true)
  | .other _ => (s, [], [], true)

/-- `ConnectToPeer` from the source: makes a single-use reply slot with
capacity one, enqueues the connect query, and returns the first value
received on the slot (`return <-reply`). -/
def connectToPeerResult (replies : List (Option String)) : Option (Option String) :=
  replies.head?

/-! ### Start and Stop -/

/-- `Start` from the source: `atomic.AddInt32(&s.started, 1)` always
increments the wrapping `int32` counter; only when the incremented value
is exactly 1 does it launch one accept-loop worker per listener, the
peer-manager worker, and the query-handler worker. -/
def start (s : ServerState) : ServerState × List Effect :=
  let started' := (s.started + 1) % 2 ^ 32
  let s' := { s with started := started' }
  if started' ≠ 1 then (s', [])
  else
    (s', ((List.range s.listenersOpen.length).map Effect.launchAcceptLoop) ++
      [.launchPeerManager, .launchQueryHandler])

/-- `Start` applied `n` times in a row (effects discarded). -/
def iterStart : Nat → ServerState → ServerState
  | 0, s => s
  | n + 1, s => iterStart n (start s).1

/-- Closing one `net.Listener`: the first close succeeds, a second close
fails with an error. -/
def closeListener (o : Bool) : Bool × Option String :=
  if o then (false, none) else (false, some "use of closed network connection")

/-- The listener loop of `Stop`: close each listener in turn, aborting at
the first close error (later listeners are then left untouched).  Returns
the listener flags afterwards, the close effects performed, and the error
if any; `i` is the index of the first listener. -/
def closeAllFrom (i : Nat) : List Bool → List Bool × List Effect × Option String
  | [] => ([], [], none)
  | o :: rest =>
    match closeListener o with
    | (o', none) =>
      let (rest', effs, err) := closeAllFrom (i + 1) rest
      (o' :: rest', .closeListener i :: effs, err)
    | (o', some e) => (o' :: rest, [], some e)

/-- `Stop` from the source: `atomic.AddInt32(&s.shutdown, 1)` always
increments the wrapping `int32` counter and every call other than the one
that brings it to 1 returns nil immediately; the first call closes each
listener (returning early on a close error), stops the RPC server and the
wallet, and closes the quit channel.  Returns the state, the returned
error (`none` is Go's nil), and the effects performed. -/
def stop (s : ServerState) : ServerState × Option String × List Effect :=
  let shutdown' := (s.shutdown + 1) % 2 ^ 32
  if shutdown' ≠ 1 then ({ s with shutdown := shutdown' }, none, [])
  else
    match closeAllFrom 0 s.listenersOpen with
    | (ls', effs, some e) =>
      ({ s with shutdown := shutdown', listenersOpen := ls' }, some e, effs)
    | (ls', effs, none) =>
      ({ s with shutdown := shutdown', listenersOpen := ls' }, none,
        effs ++ [.stopRPC, .stopWallet, .closeQuit])

/-! ### Helper lemmas about Start and Stop -/

theorem start_fst (s : ServerState) :
    (start s).1 = { s with started := (s.started + 1) % 2 ^ 32 } := by
  simp only [start]
  split <;> rfl

theorem iterStart_eq (n : Nat) (s : ServerState) (h : s.started < 2 ^ 32) :
    iterStart n s = { s with started := (s.started + n) % 2 ^ 32 } := by
  induction n generalizing s with
  | zero =>
    rw [iterStart, Nat.add_zero, Nat.mod_eq_of_lt h]
  | succ k ih =>
    rw [iterStart, start_fst]
    rw [ih _ (Nat.mod_lt _ (by norm_num))]
    cases s
    simp only [ServerState.mk.injEq, and_true, true_and]
    rw [Nat.mod_add_mod]
    ring_nf

theorem closeAllFrom_all_open (l : List Bool) (i : Nat) (h : ∀ b ∈ l, b = true) :
    closeAllFrom i l =
      (List.replicate l.length false,
        (List.range' i l.length).map Effect.closeListener, none) := by
  induction l generalizing i with
  | nil => rfl
  | cons b rest ih =>
    have hb : b = true := h b (by simp)
    subst hb
    rw [closeAllFrom]
    rw [ih (i + 1) (fun x hx => h x (by simp [hx]))]
    simp [closeListener, List.range'_succ, List.replicate_succ]

theorem readU64_exact (n : Nat) (h : n < 2 ^ 64) :
    readU64 (toBytesBE 8 n) = some (n, []) := by
  have hr := readU64_append n [] h
  rwa [List.append_nil] at hr

theorem readSha_exact (h : List Nat) (hlen : h.length = 32) :
    readSha h = some (some h, []) := by
  have hr := readSha_append h [] hlen
  rwa [List.append_nil] at hr

theorem writeSig_length (o : Option (List Nat)) (sb : List Nat)
    (h : writeSig o = .ok sb) : sb.length ≤ 73 := by
  match o with
  | none =>
    simp [writeSig] at h
    simp [← h]
  | some b =>
    rw [writeSig] at h
    by_cases hb : b.length ≤ 72
    · rw [if_pos hb] at h
      cases h
      simp
      omega
    · rw [if_neg hb] at h
      cases h

theorem writeSha_length (o : Option (List Nat))
    (h : o = none ∨ ∃ x, o = some x ∧ x.length = 32) :
    (writeSha o).length = 32 := by
  rcases h with h | ⟨x, hx, hlen⟩
  · simp [h, writeSha]
  · simp [hx, writeSha, hlen]

/-- Claim C4 (amended): decoding the bytes produced by `Encode` yields the
original struct for every in-range field assignment of `HTLCAddReject` and
`HTLCAddAccept`, and for every `CloseComplete` whose hash field is present
(32 octets) and whose signature field is absent or a nonempty blob of at
most 72 octets.  (As originally stated — including a nil `CloseShaHash` —
the claim fails: the empty all-zero encoding of a nil hash coincides with
the encoding of the present all-zero hash, so decode cannot restore nil.) -/
theorem roundtrip_amended :
    (∀ r : HTLCAddReject, r.channelID < 2 ^ 64 → r.htlcKey < 2 ^ 64 →
      HTLCAddReject.decode (HTLCAddReject.encode r) = some (r, [])) ∧
    (∀ a : HTLCAddAccept, a.channelID < 2 ^ 64 → a.htlcKey < 2 ^ 64 →
      HTLCAddAccept.decode (HTLCAddAccept.encode a) = some (a, [])) ∧
    (∀ (c : CloseComplete) (bs : List Nat),
      c.reservationID < 2 ^ 64 →
      (c.responderCloseSig = none ∨
        ∃ b, c.responderCloseSig = some b ∧ b ≠ [] ∧ b.length ≤ 72) →
      (∃ h, c.closeShaHash = some h ∧ h.length = 32) →
      CloseComplete.encode c = .ok bs →
      CloseComplete.decode bs = some (c, [])) := by
  refine ⟨?_, ?_, ?_⟩
  · rintro ⟨cid, key⟩ h1 h2
    simp only [HTLCAddReject.encode, HTLCAddReject.decode]
    rw [readU64_append cid _ h1]
    simp only [Option.bind_eq_bind, Option.some_bind]
    rw [readU64_exact key h2]
    rfl
  · rintro ⟨cid, key⟩ h1 h2
    simp only [HTLCAddAccept.encode, HTLCAddAccept.decode]
    rw [readU64_append cid _ h1]
    simp only [Option.bind_eq_bind, Option.some_bind]
    rw [readU64_exact key h2]
    rfl
  · rintro ⟨rid, sig, sha⟩ bs h1 hsig ⟨h, hsha, hlen⟩ henc
    subst hsha
    rcases hsig with hnone | ⟨b, hbeq, hbne, hble⟩
    · subst hnone
      rw [CloseComplete.encode] at henc
      simp only [writeSig] at henc
      cases henc
      simp only [CloseComplete.decode, writeSha, List.append_assoc]
      rw [readU64_append rid _ h1]
      simp only [Option.bind_eq_bind, Option.some_bind, List.singleton_append]
      rw [readSig_empty_encoding, Option.some_bind, readSha_exact h hlen]
      rfl
    · subst hbeq
      rw [CloseComplete.encode] at henc
      simp only [writeSig, if_pos hble] at henc
      cases henc
      simp only [CloseComplete.decode, writeSha, List.append_assoc]
      rw [readU64_append rid _ h1]
      simp only [Option.bind_eq_bind, Option.some_bind, List.cons_append]
      rw [readSig_append_cons b h hble hbne, Option.some_bind, readSha_exact h hlen]
      rfl

/-- Witness for C4: the amended round-trip evaluated at concrete messages,
every hypothesis discharged. -/
theorem roundtrip_amended_witness :
    HTLCAddReject.decode (HTLCAddReject.encode ⟨42, 7⟩) = some (⟨42, 7⟩, []) ∧
    HTLCAddAccept.decode (HTLCAddAccept.encode ⟨3, 9⟩) = some (⟨3, 9⟩, []) ∧
    CloseComplete.decode
        (toBytesBE 8 5 ++ (2 :: [48, 69]) ++ List.replicate 32 7) =
      some (⟨5, some [48, 69], some (List.replicate 32 7)⟩, []) := by
  refine ⟨roundtrip_amended.1 ⟨42, 7⟩ (by norm_num) (by norm_num),
    roundtrip_amended.2.1 ⟨3, 9⟩ (by norm_num) (by norm_num),
    roundtrip_amended.2.2 ⟨5, some [48, 69], some (List.replicate 32 7)⟩ _
      (by norm_num)
      (Or.inr ⟨[48, 69], rfl, by decide, by decide⟩)
      ⟨List.replicate 32 7, rfl, by decide⟩
      rfl⟩

/-- Counterexample for C4 as stated: for the valid field assignment
`CloseComplete` with `ReservationID = 1` and both optional fields nil,
`Decode (Encode m)` is not `m`: the nil hash comes back as the present
all-zero hash, because the defined empty encoding of a nil hash is the
same 32 zero octets as the encoding of a genuine zero hash. -/
theorem closeComplete_nil_hash_roundtrip_fails :
    CloseComplete.encode ⟨1, none, none⟩ =
      .ok (toBytesBE 8 1 ++ [0] ++ List.replicate 32 0) ∧
    CloseComplete.decode (toBytesBE 8 1 ++ [0] ++ List.replicate 32 0) =
      some (⟨1, none, some (List.replicate 32 0)⟩, []) ∧
    (⟨1, none, some (List.replicate 32 0)⟩ : CloseComplete) ≠ ⟨1, none, none⟩ := by
  refine ⟨rfl, by decide, by decide⟩

/-- Claim C5: for every message variant and every field assignment the
`Encode`/`Decode` pair can produce, the encoded byte length never exceeds
`MaxPayloadLength` at any protocol version (16 for the two HTLC variants,
113 for `CloseComplete`), and encoding `HTLCAddReject` with
`ChannelID = 42`, `HTLCKey = 7` produces exactly 16 bytes. -/
theorem encode_length_bounded :
    (∀ (r : HTLCAddReject) (v : Nat),
      (HTLCAddReject.encode r).length ≤ HTLCAddReject.maxPayloadLength v) ∧
    (∀ (a : HTLCAddAccept) (v : Nat),
      (HTLCAddAccept.encode a).length ≤ HTLCAddAccept.maxPayloadLength v) ∧
    (∀ (c : CloseComplete) (bs : List Nat) (v : Nat),
      (c.closeShaHash = none ∨ ∃ h, c.closeShaHash = some h ∧ h.length = 32) →
      CloseComplete.encode c = .ok bs →
      bs.length ≤ CloseComplete.maxPayloadLength v) ∧
    (HTLCAddReject.encode ⟨42, 7⟩).length = 16 := by
  refine ⟨?_, ?_, ?_, by decide⟩
  · intro r v
    simp [HTLCAddReject.encode, HTLCAddReject.maxPayloadLength, toBytesBE_length]
  · intro a v
    simp [HTLCAddAccept.encode, HTLCAddAccept.maxPayloadLength, toBytesBE_length]
  · intro c bs v hsha henc
    rw [CloseComplete.encode] at henc
    cases hw : writeSig c.responderCloseSig with
    | error e => rw [hw] at henc; cases henc
    | ok sb =>
      rw [hw] at henc
      cases henc
      have hsb := writeSig_length c.responderCloseSig sb hw
      have hsh := writeSha_length c.closeShaHash hsha
      simp [CloseComplete.maxPayloadLength, toBytesBE_length, hsh]
      omega

/-- Witness for C5: the bound evaluated at concrete messages, with the
`CloseComplete` hypotheses discharged at a concrete encode. -/
theorem encode_length_bounded_witness :
    (HTLCAddReject.encode ⟨1, 2⟩).length ≤ HTLCAddReject.maxPayloadLength 0 ∧
    (HTLCAddAccept.encode ⟨3, 4⟩).length ≤ HTLCAddAccept.maxPayloadLength 0 ∧
    (toBytesBE 8 5 ++ (2 :: [48, 69]) ++ List.replicate 32 7).length ≤
      CloseComplete.maxPayloadLength 0 := by
  refine ⟨encode_length_bounded.1 ⟨1, 2⟩ 0, encode_length_bounded.2.1 ⟨3, 4⟩ 0,
    encode_length_bounded.2.2.1 ⟨5, some [48, 69], some (List.replicate 32 7)⟩ _ 0
      (Or.inr ⟨List.replicate 32 7, rfl, by decide⟩) rfl⟩

/-- Claim C6: encoding `CloseComplete` with both optional fields nil does
not panic (the model's total `encode` returns a defined value) and yields
one deterministic empty-field encoding — a zero signature length byte and
32 zero hash octets; its diagnostic rendering succeeds and shows an empty
signature hex string and an empty hash string. -/
theorem closeComplete_nil_fields_encode_and_string :
    CloseComplete.encode ⟨1, none, none⟩ =
      .ok ([0, 0, 0, 0, 0, 0, 0, 1] ++ [0] ++ List.replicate 32 0) ∧
    closeCompleteString ⟨1, none, none⟩ =
      "\n--- Begin CloseComplete ---\n" ++
        "ReservationID:\t\t1\n" ++
        "ResponderCloseSig:\t\n" ++
        "CloseShaHash:\t\t\n" ++
        "--- End CloseComplete ---\n" := by
  constructor
  · rfl
  · rfl

/-! ### Claim theorems about the connection/session manager -/

/-- Claim C1 (code evaluation at the failing input): on a connect request
whose background dial fails, the dial task delivers TWO values to the
reply slot — the dial error and then a nil success reply — and still
constructs a peer session from the failed connection and enqueues it on
the new-peer queue; `ConnectToPeer` receives only the first of them.  The
claim (one reply, no peer construction on failure) is violated because the
goroutine does not return after sending the dial error. -/
theorem connectTask_dial_failure_double_reply :
    connectTask (some "connection refused") ⟨7, "10.0.0.1:9735"⟩ =
      ([some "connection refused", none],
        [Effect.sendNewPeer ⟨7, "10.0.0.1:9735"⟩]) ∧
    ((connectTask (some "connection refused") ⟨7, "10.0.0.1:9735"⟩).1).length = 2 ∧
    connectToPeerResult ((connectTask (some "connection refused")
        ⟨7, "10.0.0.1:9735"⟩).1) = some (some "connection refused") :=
  ⟨rfl, rfl, rfl⟩

theorem dupReplies_first (m : List (Nat × Peer)) (addr : String)
    (h : ∃ e ∈ m, e.2.lightningAddr = addr) :
    ∃ (p : Peer) (tail : List (Option String)), p.lightningAddr = addr ∧
      dupReplies m addr = some (dupErrorMsg p) :: tail := by
  induction m with
  | nil => simp at h
  | cons e rest ih =>
    by_cases he : e.2.lightningAddr = addr
    · refine ⟨e.2, dupReplies rest addr, he, ?_⟩
      simp [dupReplies, he]
    · obtain ⟨x, hx, hxa⟩ := h
      rcases List.mem_cons.mp hx with hxe | hxr
      · subst hxe
        exact absurd hxa he
      · obtain ⟨p, tail, hp, htl⟩ := ih ⟨x, hxr, hxa⟩
        exact ⟨p, tail, hp, by simp [dupReplies, he] at htl ⊢; exact htl⟩

/-- Claim C2: when a connect query's target address rendering equals the
remote-address rendering of a peer registered in the peer map, the query
processor delivers a duplicate-connection error to the reply slot — and it
is the first value on the slot, so `ConnectToPeer` returns it — and,
regardless of whether a duplicate was found, the background dial task is
still launched. -/
theorem connect_duplicate_error_and_dial :
    (∀ (s : ServerState) (addr : String) (dialErr : Option String) (session : Peer),
      (∃ e ∈ s.peers, e.2.lightningAddr = addr) →
      ∃ p : Peer, p.lightningAddr = addr ∧
        connectToPeerResult
            ((handleQuery s (.connectPeer addr) dialErr session).2.1) =
          some (some (dupErrorMsg p))) ∧
    (∀ (s : ServerState) (addr : String) (dialErr : Option String) (session : Peer),
      Effect.launchDialTask ∈ (handleQuery s (.connectPeer addr) dialErr session).2.2.1) := by
  constructor
  · intro s addr dialErr session h
    obtain ⟨p, tail, hp, htl⟩ := dupReplies_first s.peers addr h
    refine ⟨p, hp, ?_⟩
    simp [handleQuery, connectToPeerResult, htl]
  · intro s addr dialErr session
    simp [handleQuery]

/-- Witness for C2: a server with one registered peer at the target
address; the duplicate error is returned and the dial is still launched. -/
theorem connect_duplicate_error_and_dial_witness :
    (∃ p : Peer, p.lightningAddr = "10.0.0.1:9735" ∧
      connectToPeerResult
          ((handleQuery ⟨1, 0, [], [(1, ⟨1, "10.0.0.1:9735"⟩)]⟩
            (.connectPeer "10.0.0.1:9735") none ⟨2, "10.0.0.1:9735"⟩).2.1) =
        some (some (dupErrorMsg p))) ∧
    Effect.launchDialTask ∈
      (handleQuery ⟨1, 0, [], [(1, ⟨1, "10.0.0.1:9735"⟩)]⟩
        (.connectPeer "10.0.0.1:9735") none ⟨2, "10.0.0.1:9735"⟩).2.2.1 :=
  ⟨connect_duplicate_error_and_dial.1 _ _ _ _
      ⟨(1, ⟨1, "10.0.0.1:9735"⟩), by simp, rfl⟩,
    connect_duplicate_error_and_dial.2 _ _ _ _⟩

/-- Claim C7: a peer delivered on the new-peer queue while the shutdown
flag is set is stopped instead of registered and the server state (in
particular the peer map) is unchanged; with the shutdown flag unset the
peer is registered unconditionally under its identifier. -/
theorem newPeer_shutdown_stop_or_register :
    (∀ (s : ServerState) (p : Peer), s.shutdown ≠ 0 →
      peerManagerStep s (.newPeer (some p)) = (s, [.stopPeer p.peerID], true)) ∧
    (∀ (s : ServerState) (p : Peer), s.shutdown = 0 →
      peerManagerStep s (.newPeer (some p)) =
        ({ s with peers := insertPeer s.peers p }, [], true) ∧
      findPeer (insertPeer s.peers p) p.peerID = some p) := by
  constructor
  · intro s p h
    simp [peerManagerStep, addPeer, h]
  · intro s p h
    exact ⟨by simp [peerManagerStep, addPeer, h], findPeer_insertPeer s.peers p⟩

/-- Witness for C7: both branches evaluated at concrete states. -/
theorem newPeer_shutdown_stop_or_register_witness :
    peerManagerStep ⟨0, 1, [], []⟩ (.newPeer (some ⟨4, "a"⟩)) =
      (⟨0, 1, [], []⟩, [.stopPeer 4], true) ∧
    peerManagerStep ⟨0, 0, [], []⟩ (.newPeer (some ⟨4, "a"⟩)) =
      ({ (⟨0, 0, [], []⟩ : ServerState) with
          peers := insertPeer ([] : List (Nat × Peer)) ⟨4, "a"⟩ }, [], true) :=
  ⟨newPeer_shutdown_stop_or_register.1 ⟨0, 1, [], []⟩ ⟨4, "a"⟩ (by decide),
    (newPeer_shutdown_stop_or_register.2 ⟨0, 0, [], []⟩ ⟨4, "a"⟩ rfl).1⟩

/-- Claim C9: delivering a done-peer message for a peer whose identifier
is not in the peer map is a no-op, not an error: the state is unchanged,
no effects are performed, and the mutator worker continues. -/
theorem donePeer_absent_noop (s : ServerState) (p : Peer)
    (_h : findPeer s.peers p.peerID = none) :
    peerManagerStep s (.donePeer p) = (s, [], true) := rfl

/-- Witness for C9: removing an absent peer id from an empty peer map. -/
theorem donePeer_absent_noop_witness :
    peerManagerStep ⟨0, 0, [], []⟩ (.donePeer ⟨5, "x"⟩) = (⟨0, 0, [], []⟩, [], true) :=
  donePeer_absent_noop ⟨0, 0, [], []⟩ ⟨5, "x"⟩ rfl

/-- Claim C10: a value on the generic query queue that is not a
connect-to-peer message is consumed and silently discarded: no reply is
delivered, the server state is unchanged, no effect is performed, and the
query-processor worker continues. -/
theorem query_other_discarded (s : ServerState) (tag : Nat)
    (dialErr : Option String) (session : Peer) :
    handleQuery s (.other tag) dialErr session = (s, [], [], true) := rfl

/-- Claim C3 (amended): `Stop` called twice — equally before or after
`Start`, which `Stop` never reads — returns without error on both calls;
only the first call performs the closes, closing each listener exactly
once and the quit channel exactly once, while the second call performs no
close and changes no state other than incrementing the internal shutdown
counter from 1 to 2.  (As originally stated — "the second call performs no
state change" — the claim fails: `atomic.AddInt32` increments the shutdown
counter on every call.) -/
theorem stop_twice_amended (s : ServerState)
    (hsd : s.shutdown = 0) (hl : ∀ b ∈ s.listenersOpen, b = true) :
    stop s =
      ({ s with
          shutdown := 1,
          listenersOpen := List.replicate s.listenersOpen.length false }, none,
        (List.range' 0 s.listenersOpen.length).map Effect.closeListener ++
          [.stopRPC, .stopWallet, .closeQuit]) ∧
    stop (stop s).1 = ({ (stop s).1 with shutdown := 2 }, none, []) := by
  have h1 : (s.shutdown + 1) % 2 ^ 32 = 1 := by
    rw [hsd]
    norm_num
  have hfst : stop s =
      ({ s with
          shutdown := 1,
          listenersOpen := List.replicate s.listenersOpen.length false }, none,
        (List.range' 0 s.listenersOpen.length).map Effect.closeListener ++
          [.stopRPC, .stopWallet, .closeQuit]) := by
    rw [stop]
    simp only [h1, ne_eq, not_true_eq_false, if_false, closeAllFrom_all_open _ _ hl]
  refine ⟨hfst, ?_⟩
  rw [hfst]
  rw [stop]
  norm_num

/-- Counterexample for C3 as stated: on a server with one open
listener, the second `Stop` call does change the state — the wrapping
`int32` shutdown counter moves from 1 to 2. -/
theorem stop_second_call_changes_state :
    (stop (stop ⟨0, 0, [true], []⟩).1).1 ≠ (stop ⟨0, 0, [true], []⟩).1 := by
  decide

/-- Witness for C3: the amended statement evaluated on a fresh server with
one open listener. -/
theorem stop_twice_amended_witness :
    stop (⟨0, 0, [true], []⟩ : ServerState) =
      ({ (⟨0, 0, [true], []⟩ : ServerState) with
          shutdown := 1,
          listenersOpen := List.replicate ([true] : List Bool).length false }, none,
        (List.range' 0 ([true] : List Bool).length).map Effect.closeListener ++
          [.stopRPC, .stopWallet, .closeQuit]) ∧
    stop (stop (⟨0, 0, [true], []⟩ : ServerState)).1 =
      ({ (stop (⟨0, 0, [true], []⟩ : ServerState)).1 with shutdown := 2 }, none, []) :=
  stop_twice_amended ⟨0, 0, [true], []⟩ rfl (by decide)

/-- Claim C8 (amended): `Start` launches its workers — one accept loop per
listener, the peer manager and the query handler — exactly on the call
that brings its wrapping `int32` counter to 1, so on the first call; every
later call launches nothing and changes no state other than incrementing
the started counter, as long as the cumulative number of calls stays below
`2^32`.  (As originally stated — "every call after the first is a no-op" —
the claim fails: the counter wraps, so call number `2^32 + 1` launches the
workers again.) -/
theorem start_amended :
    (∀ s : ServerState, s.started = 0 →
      start s = ({ s with started := 1 },
        (List.range s.listenersOpen.length).map Effect.launchAcceptLoop ++
          [.launchPeerManager, .launchQueryHandler])) ∧
    (∀ s : ServerState, s.started ≠ 0 → s.started + 1 < 2 ^ 32 →
      start s = ({ s with started := s.started + 1 }, [])) := by
  constructor
  · intro s h
    have h1 : (s.started + 1) % 2 ^ 32 = 1 := by
      rw [h]
      norm_num
    rw [start]
    simp only [h1, ne_eq, not_true_eq_false, if_false]
  · intro s h hlt
    have h1 : (s.started + 1) % 2 ^ 32 = s.started + 1 := Nat.mod_eq_of_lt hlt
    have h2 : s.started + 1 ≠ 1 := by omega
    rw [start]
    simp only [h1, ne_eq, h2, not_false_eq_true, if_true]

/-- Counterexample for C8 as stated: on a fresh server with no listeners,
after `2^32` calls the wrapping started counter is back at 0, and the next
call — a call after the first — launches the peer-manager and
query-handler workers again instead of being a no-op. -/
theorem start_relaunches_after_wrap :
    (start (iterStart (2 ^ 32) ⟨0, 0, [], []⟩)).2 =
      [Effect.launchPeerManager, Effect.launchQueryHandler] := by
  have hi : iterStart (2 ^ 32) (⟨0, 0, [], []⟩ : ServerState) =
      (⟨0, 0, [], []⟩ : ServerState) := by
    rw [iterStart_eq _ _ (by norm_num)]
    norm_num
  rw [hi]
  rfl

/-- Witness for C8: the amended statement evaluated at a fresh server (the
launching first call) and at a server whose counter is already 5 (a later
call that only bumps the counter). -/
theorem start_amended_witness :
    start (⟨0, 0, [], []⟩ : ServerState) =
      ({ (⟨0, 0, [], []⟩ : ServerState) with started := 1 },
        (List.range ([] : List Bool).length).map Effect.launchAcceptLoop ++
          [.launchPeerManager, .launchQueryHandler]) ∧
    start (⟨5, 0, [], []⟩ : ServerState) =
      ({ (⟨5, 0, [], []⟩ : ServerState) with started := 5 + 1 }, []) :=
  ⟨start_amended.1 ⟨0, 0, [], []⟩ rfl,
    start_amended.2 ⟨5, 0, [], []⟩ (by decide) (by norm_num)⟩

end LnSpec
